import Mathlib

/-!
Shallow embedding of the vectomorph browser application (TypeScript) and
proofs about its behaviour.  The embedding covers:

* the character-level string operations used by the code
  (`String.prototype.includes`, `startsWith`, `endsWith`, the regex
  replaces of the SVG utilities and of `generateSvgFileName`);
* the data model of `src/types/app.ts` (`ProcessingState`, `AppError`,
  `ErrorCategory`, `ValidationResult`, `ConversionResult`, `AppState`);
* the service classes `ImageProcessingServiceImpl` and
  `FileHandlingServiceImpl`, the `DownloadButton` click handler, and the
  `HomePage` batching loop / state transitions.

Browser-only effects (canvas rasterisation, DOM nodes, object URLs) are
outside the string/state level the claims talk about; the outcome of the
external tracer call is abstracted as a `TracerOutput` value supplied to
`processImage`, exactly the value observed by the validation code.
-/

/-- Character-list prefix test: `matchesAt pat s` is true when `pat` occurs
at the very start of `s`.  This models anchored matching of a literal
pattern. -/
def matchesAt : List Char → List Char → Bool
  | [], _ => true
  | _ :: _, [] => false
  | p :: ps, c :: cs => p = c && matchesAt ps cs

/-- Substring occurrence test on character lists, scanning left to right;
models `String.prototype.includes` of a literal pattern. -/
def hasSub (pat : List Char) : List Char → Bool
  | [] => matchesAt pat []
  | c :: cs => matchesAt pat (c :: cs) || hasSub pat cs

/-- JavaScript `s.includes(pat)` on the embedded strings. -/
def hasSubStr (s pat : String) : Bool := hasSub pat.data s.data

/-- JavaScript `s.startsWith(pat)`. -/
def strStarts (s pat : String) : Bool := matchesAt pat.data s.data

/-- JavaScript `s.endsWith(pat)`. -/
def strEnds (s pat : String) : Bool := matchesAt pat.data.reverse s.data.reverse

/-- JavaScript `s.toLowerCase()` restricted to the ASCII range, which is all
the code applies it to (MIME types, extensions, file names). -/
def toLowerStr (s : String) : String := String.mk (s.data.map Char.toLower)

/-- JavaScript `x || default` on an optional string: `none` and the empty
string are falsy. -/
def jsOr (o : Option String) (d : String) : String :=
  match o with
  | some s => if s = "" then d else s
  | none => d

/-- Leftmost occurrence split: `splitAtSub pat s = some (b, a)` when `s`
decomposes as `b ++ pat ++ a` at the first occurrence of `pat`. -/
def splitAtSub (pat : List Char) : List Char → Option (List Char × List Char)
  | [] => if matchesAt pat [] then some ([], []) else none
  | c :: cs =>
    if matchesAt pat (c :: cs) then some ([], (c :: cs).drop pat.length)
    else
      match splitAtSub pat cs with
      | some (b, a) => some (c :: b, a)
      | none => none

/-! Data model from `src/types/app.ts`. -/

/-- Error categories of `src/types/app.ts` (`ErrorCategory` enum): exactly
three values. -/
inductive ErrorCategory
  | FILE_VALIDATION
  | PROCESSING
  | BROWSER_COMPATIBILITY
deriving DecidableEq, Repr

/-- The application error wrapper (`class AppError extends Error`): a
developer message, a category, a user-facing message and a recoverable
flag. -/
structure AppError where
  message : String
  category : ErrorCategory
  userMessage : String
  recoverable : Bool
deriving DecidableEq, Repr

/-- Processing states of the UI state machine (`ProcessingState` enum). -/
inductive ProcessingState
  | IDLE
  | UPLOADING
  | PROCESSING
  | COMPLETED
  | ERROR
deriving DecidableEq, Repr

/-- A browser `File` as observed by the code: name, MIME type and byte
size.  `size` is a non-negative integer (JavaScript file sizes are). -/
structure File where
  name : String
  type : String
  size : Nat
deriving DecidableEq, Repr

/-- Result of a validation call (`ValidationResult`): the optional `error`
field is present exactly when a message was produced. -/
structure ValidationResult where
  isValid : Bool
  error : Option String
deriving DecidableEq, Repr

/-- An entry of `conversionResults` (`ConversionResult`).  The random `id`
and the wall-clock `processingTime` of the source are nondeterministic
bookkeeping and are not part of the embedding. -/
structure ConversionResult where
  file : File
  svgContent : String
  error : Option String
deriving DecidableEq, Repr

/-- The centralized `HomePage` state (`AppState`). -/
structure AppState where
  uploadedFiles : List File
  isProcessing : Bool
  conversionResults : List ConversionResult
  error : Option String
  processingState : ProcessingState
  currentlyProcessing : Option String
deriving DecidableEq, Repr

/-- A blob created for download (`new Blob([content], { type })`). -/
structure Blob where
  content : String
  mimeType : String
deriving DecidableEq, Repr

/-- A download actually handed to the browser by `triggerDownload`: the
blob and the file name given to the anchor element. -/
structure Download where
  blob : Blob
  fileName : String
deriving DecidableEq, Repr

/-- The value produced by the external tracer call
`tracer.imageDataToSVG(imageData, options)`, as seen by the validation
code: either not a string (`null`, `undefined`, an object, ...) or some
string. -/
inductive TracerOutput
  | notString
  | str (s : String)
deriving DecidableEq, Repr

/-! SVG display utilities (`svg-utils`): `ensureViewBox` and
`optimizeSVGForDisplay`. -/

/-- The literal `<svg` searched by the regex `/<svg([^>]*)>/`. -/
def svgOpenL : List Char := "<svg".data

/-- First-match split of the regex `/<svg([^>]*)>/` on a character list:
the leftmost occurrence of `<svg`, then the attribute run up to the first
following `>`.  Returns the text before the match, the captured
attributes, and the text after the match.  (Leftmost semantics: since
`[^>]*` cannot cross a `>`, the regex matches at the first `<svg` that is
followed by some `>`, which is the first `<svg` if any match exists at
all.) -/
def tagSplit (l : List Char) : Option (List Char × List Char × List Char) :=
  match splitAtSub svgOpenL l with
  | none => none
  | some (b, rest) =>
    match splitAtSub ['>'] rest with
    | none => none
    | some (attrs, after) => some (b, attrs, after)

/-- JavaScript `svg.replace(/<svg([^>]*)>/, '<svg$1' + tail)`: replace the
first `<svg ...>` tag, keeping the captured attributes and substituting
the closing `>` by `tail`; the identity when there is no match. -/
def replaceSvgTag (tail : List Char) (l : List Char) : List Char :=
  match tagSplit l with
  | none => l
  | some (b, attrs, after) => b ++ svgOpenL ++ attrs ++ tail ++ after

/-- Characters matched by the regex class `[\d.]`. -/
def isDigitDot (c : Char) : Bool := c.isDigit || c = '.'

/-- Anchored match of `key ++ [\d.]+ ++ '"'` at the start of `s`,
returning the captured number text; models matching e.g.
`/width="([\d.]+)"/` at one position. -/
def numAt (key : List Char) (s : List Char) : Option String :=
  if matchesAt key s then
    let t := s.drop key.length
    let run := t.takeWhile isDigitDot
    match t.drop run.length with
    | '"' :: _ => if run = [] then none else some (String.mk run)
    | _ => none
  else none

/-- Leftmost match of `key ++ [\d.]+ ++ '"'` anywhere in the string;
models `svg.match(/width="([\d.]+)"/)` returning the first capture. -/
def scanNum (key : List Char) : List Char → Option String
  | [] => none
  | c :: cs =>
    match numAt key (c :: cs) with
    | some r => some r
    | none => scanNum key cs

/-- Tail text inserted by `ensureViewBox`, from the template
`<svg$1 viewBox="0 0 w h" preserveAspectRatio="xMidYMid meet">`. -/
def vbTail (w h : String) : List Char :=
  " viewBox=\"0 0 ".data ++ w.data ++ " ".data ++ h.data ++
    "\" preserveAspectRatio=\"xMidYMid meet\">".data

/-- Tail text inserted by `optimizeSVGForDisplay`, from the template
`<svg$1 preserveAspectRatio="xMidYMid meet">`. -/
def parTail : List Char := " preserveAspectRatio=\"xMidYMid meet\">".data

/-- The `ensureViewBox` function of the SVG utilities: return the string
unchanged when it already mentions `viewBox`, otherwise read
`width="..."`/`height="..."` (default `'100'`) and rewrite the first
`<svg ...>` tag to add a viewBox. -/
def ensureViewBox (svg : String) : String :=
  if hasSubStr svg "viewBox" then svg
  else
    String.mk (replaceSvgTag
      (vbTail (jsOr (scanNum "width=\"".data svg.data) "100")
        (jsOr (scanNum "height=\"".data svg.data) "100"))
      svg.data)

/-- The `optimizeSVGForDisplay` function: `ensureViewBox`, then add
`preserveAspectRatio` to the first `<svg ...>` tag when absent (the
source's local `optimizedSVG` variable is inlined). -/
def optimizeSVGForDisplay (svg : String) : String :=
  if hasSubStr (ensureViewBox svg) "preserveAspectRatio" then ensureViewBox svg
  else String.mk (replaceSvgTag parTail (ensureViewBox svg).data)

/-! The image-processing service (`ImageProcessingServiceImpl` in
`image-processing.service.ts`). -/

namespace ImageProcessingServiceImpl

/-- Supported MIME types of the image-processing service. -/
def supportedTypes : List String :=
  ["image/png", "image/jpeg", "image/jpg", "image/bmp", "image/gif"]

/-- The 10MB size cap (`10 * 1024 * 1024` bytes). -/
def maxFileSize : Nat := 10 * 1024 * 1024

/-- Tenths of a megabyte, approximating the floating-point
`(bytes / (1024 * 1024)).toFixed(1)` used only inside diagnostic message
text; no claim depends on the digits produced. -/
def mbTenths (bytes : Nat) : Nat := (bytes * 10 + 524288) / 1048576

/-- Decimal text of `mbTenths`, standing in for `toFixed(1)`. -/
def fmtMB (bytes : Nat) : String :=
  toString (mbTenths bytes / 10) ++ "." ++ toString (mbTenths bytes % 10)

/-- The `validateFile` method: reject unsupported MIME types (after
lowercasing), then files over the 10MB cap, and accept everything else.
The `!file` null-check of the source is not representable: every `File`
value of the embedding is an actual file. -/
def validateFile (file : File) : ValidationResult :=
  if !(supportedTypes.contains (toLowerStr file.type)) then
    { isValid := false
      error := some ("Unsupported file type: " ++ file.type ++
        ". Supported types: " ++ String.intercalate ", " supportedTypes) }
  else if maxFileSize < file.size then
    { isValid := false
      error := some ("File size (" ++ fmtMB file.size ++
        "MB) exceeds maximum allowed size (" ++ fmtMB maxFileSize ++ "MB)") }
  else { isValid := true, error := none }

/-- Vector-content check of `traceImageToSvgWithVectorizer`
(`hasVectorContent` in the source): the output mentions at least one
vector element. -/
def hasVectorContent (s : String) : Bool :=
  hasSubStr s "<path" || hasSubStr s "<polygon" || hasSubStr s "<circle" ||
    hasSubStr s "<rect" || hasSubStr s "<ellipse" || hasSubStr s "<line"

/-- Combined acceptance condition of the substring validation: the output
contains `<svg` and `</svg>` and some vector element. -/
def svgAccept (s : String) : Bool :=
  (hasSubStr s "<svg" && hasSubStr s "</svg>") && hasVectorContent s

/-- First 200 characters of a string, modelling `s.substring(0, 200)` in
diagnostic messages. -/
def take200 (s : String) : String := String.mk (s.data.take 200)

/-- Validation part of `traceImageToSvgWithVectorizer`, applied to the
value returned by the external tracer: reject non-strings and the empty
string (falsy), then outputs without `<svg`/`</svg>`, then outputs with no
vector content; otherwise resolve with the tracer output itself.  Every
rejection is an `AppError` in the `PROCESSING` category with
`recoverable = true`. -/
def traceImageToSvgWithVectorizer (o : TracerOutput) : Except AppError String :=
  match o with
  | TracerOutput.notString =>
    Except.error
      { message := "ImageTracer returned invalid result"
        category := ErrorCategory.PROCESSING
        userMessage := "Failed to generate SVG from image"
        recoverable := true }
  | TracerOutput.str s =>
    if s = "" then
      Except.error
        { message := "ImageTracer returned invalid result: string - "
          category := ErrorCategory.PROCESSING
          userMessage := "Failed to generate SVG from image"
          recoverable := true }
    else if !(hasSubStr s "<svg") || !(hasSubStr s "</svg>") then
      Except.error
        { message := "Generated SVG is malformed: " ++ take200 s
          category := ErrorCategory.PROCESSING
          userMessage := "The generated SVG appears to be invalid"
          recoverable := true }
    else if !(hasVectorContent s) then
      Except.error
        { message := "ImageTracer generated an empty SVG without vector paths: " ++ take200 s
          category := ErrorCategory.PROCESSING
          userMessage := "The image could not be converted to vector format. The tracing process failed to generate any paths."
          recoverable := true }
    else Except.ok s

/-- The `processImage` method at the level the claims describe: validate
the file (throwing a `FILE_VALIDATION` `AppError` when invalid), then run
the tracer on the canvas and validate its output, returning the validated
string as is.  Canvas creation and drawing are browser effects with no
bearing on the returned string; the tracer's return value is the
`TracerOutput` argument.  The source's surrounding `try/catch` rethrows
`AppError`s unchanged, which is what every error of the embedding is. -/
def processImage (file : File) (tracerResult : TracerOutput) :
    Except AppError String :=
  let validation := validateFile file
  if !validation.isValid then
    Except.error
      { message := "File validation failed: " ++ jsOr validation.error ""
        category := ErrorCategory.FILE_VALIDATION
        userMessage := jsOr validation.error "Invalid file"
        recoverable := true }
  else traceImageToSvgWithVectorizer tracerResult

end ImageProcessingServiceImpl

/-! The file-handling service (`FileHandlingServiceImpl` in
`file-handling.service.ts`). -/

namespace FileHandlingServiceImpl

/-- The `validateFileType` method: an empty allowed-types list means no
restriction; otherwise some entry must equal the lowercased MIME type, or
be a dot-extension the lowercased name ends with, or be a bare extension
(no slash, no dot) the name ends with after prepending a dot. -/
def validateFileType (file : File) (allowedTypes : List String) : Bool :=
  if allowedTypes.isEmpty then true
  else
    let fileType := toLowerStr file.type
    let fileName := toLowerStr file.name
    allowedTypes.any fun allowedType =>
      let normalizedType := toLowerStr allowedType
      if fileType = normalizedType then true
      else if strStarts normalizedType "." && strEnds fileName normalizedType then true
      else if !(hasSubStr normalizedType "/") && !(strStarts normalizedType ".") then
        strEnds fileName ("." ++ normalizedType)
      else false

/-- The `validateFileSize` method: a non-positive cap means no limit,
otherwise the size must not exceed the cap. -/
def validateFileSize (file : File) (maxSize : Int) : Bool :=
  if maxSize ≤ 0 then true
  else (file.size : Int) ≤ maxSize

/-- Tenths of a megabyte of an integer byte count, approximating the
floating-point `toFixed(1)` inside the size error message. -/
def mbTenthsInt (bytes : Int) : Int := (bytes * 10 + 524288) / 1048576

/-- Decimal text for `mbTenthsInt`, used only inside message text. -/
def fmtMBInt (bytes : Int) : String :=
  toString (mbTenthsInt bytes / 10) ++ "." ++ toString (mbTenthsInt bytes % 10)

/-- The combined `validateFile` method: type check first, then size
check. -/
def validateFile (file : File) (allowedTypes : List String) (maxSize : Int) :
    ValidationResult :=
  if !validateFileType file allowedTypes then
    { isValid := false
      error := some ("File type not supported. Allowed types: " ++
        String.intercalate ", " allowedTypes) }
  else if !validateFileSize file maxSize then
    { isValid := false
      error := some ("File size (" ++ fmtMBInt file.size ++
        "MB) exceeds maximum allowed size (" ++ fmtMBInt maxSize ++ "MB)") }
  else { isValid := true, error := none }

/-- Trailing-extension matcher for the regex `/\.[^/.]+$/` of
`generateSvgFileName`, scanning the reversed character list: accumulate
non-dot, non-slash characters from the end; on the last dot, succeed with
the remaining (still reversed) stem when at least one character was
accumulated.  A slash before any dot, or no dot at all, or an empty
candidate extension means the regex does not match. -/
def extMatchRev (acc : List Char) : List Char → Option (List Char)
  | [] => none
  | c :: rest =>
    if c = '.' then (if acc.isEmpty then none else some rest)
    else if c = '/' then none
    else extMatchRev (c :: acc) rest

/-- The `generateSvgFileName` method:
`originalFileName.replace(/\.[^/.]+$/, '') + '.svg'`. -/
def generateSvgFileName (originalFileName : String) : String :=
  let base :=
    match extMatchRev [] originalFileName.data.reverse with
    | some restRev => String.mk restRev.reverse
    | none => originalFileName
  base ++ ".svg"

/-- The `createDownloadBlob` method: an empty content string (falsy) is a
non-recoverable `FILE_VALIDATION` error, otherwise a blob is built.  The
`catch` branch around the `Blob` constructor is browser-failure handling
with no string-level trigger. -/
def createDownloadBlob (content : String) (mimeType : String) :
    Except AppError Blob :=
  if content = "" then
    Except.error
      { message := "No content provided for blob creation"
        category := ErrorCategory.FILE_VALIDATION
        userMessage := "No content available to download"
        recoverable := false }
  else Except.ok { content := content, mimeType := mimeType }

/-- The `triggerDownload` method: an empty file name (falsy) is a
non-recoverable `FILE_VALIDATION` error; otherwise the blob is handed to
the browser under the given name.  The `!blob` null-check and the DOM
anchor mechanics are not representable at this level. -/
def triggerDownload (blob : Blob) (fileName : String) :
    Except AppError Download :=
  if fileName = "" then
    Except.error
      { message := "No filename provided for download"
        category := ErrorCategory.FILE_VALIDATION
        userMessage := "Unable to determine filename for download"
        recoverable := false }
  else Except.ok { blob := blob, fileName := fileName }

end FileHandlingServiceImpl

/-! The download button (`DownloadButton.tsx`). -/

namespace DownloadButton

/-- The `handleDownload` click handler: nothing happens (`none`) when the
content or name is empty or the button is disabled or a download is in
flight; otherwise the SVG file name is generated from the original name,
a blob is created from the SVG content and the download is triggered with
exactly that generated name. -/
def handleDownload (svgContent fileName : String)
    (disabled isDownloading : Bool) : Option (Except AppError Download) :=
  if svgContent = "" || fileName = "" || disabled || isDownloading then none
  else
    some
      (match FileHandlingServiceImpl.createDownloadBlob svgContent
          "image/svg+xml" with
      | Except.error e => Except.error e
      | Except.ok blob =>
        FileHandlingServiceImpl.triggerDownload blob
          (FileHandlingServiceImpl.generateSvgFileName fileName))

end DownloadButton

/-! The main page (`HomePage` in `page.tsx`): batching loop and state
machine. -/

namespace HomePage

/-- One iteration of the `for` loop of `handleFileSelect`: process the
file, producing a successful `ConversionResult` on resolution and, in the
per-file `catch`, an entry with empty `svgContent` and the error's
user-facing message.  All errors of the embedding are `AppError`s, so the
`instanceof AppError` branch applies.  `env` gives the tracer output the
external library produces for each file. -/
def convertOne (env : File → TracerOutput) (file : File) : ConversionResult :=
  match ImageProcessingServiceImpl.processImage file (env file) with
  | Except.ok svgContent => { file := file, svgContent := svgContent, error := none }
  | Except.error e => { file := file, svgContent := "", error := some e.userMessage }

/-- The sequential loop of `handleFileSelect` over the selected files: each
conversion is awaited before the next starts, and its result is appended
to the results list in loop order. -/
def processFiles (env : File → TracerOutput) : List File → List ConversionResult
  | [] => []
  | f :: rest => convertOne env f :: processFiles env rest

/-- The initial `useState` value of the application state. -/
def initialAppState : AppState :=
  { uploadedFiles := []
    isProcessing := false
    conversionResults := []
    error := none
    processingState := ProcessingState.IDLE
    currentlyProcessing := none }

/-- State update at the top of `handleFileSelect` (file selection): store
the batch, clear previous results and errors, and enter the processing
state.  `handleFileSelect` returns without touching the state when the
list is empty. -/
def startBatch (files : List File) (s : AppState) : AppState :=
  if files.isEmpty then s
  else
    { s with
      uploadedFiles := files
      isProcessing := true
      conversionResults := []
      error := none
      processingState := ProcessingState.PROCESSING
      currentlyProcessing := (files.head?).map File.name }

/-- Per-file state update before a conversion: record the file name being
processed. -/
def setCurrent (n : String) (s : AppState) : AppState :=
  { s with currentlyProcessing := some n }

/-- Per-file state update after a conversion (successful or failed):
append the `ConversionResult` to the results list. -/
def appendResult (r : ConversionResult) (s : AppState) : AppState :=
  { s with conversionResults := s.conversionResults ++ [r] }

/-- State update once every file of the batch has been handled. -/
def completeBatch (s : AppState) : AppState :=
  { s with
    isProcessing := false
    processingState := ProcessingState.COMPLETED
    currentlyProcessing := none }

/-- State update of the outer `catch` of `handleFileSelect` (batch
error). -/
def failBatch (msg : String) (s : AppState) : AppState :=
  { s with
    isProcessing := false
    error := some msg
    processingState := ProcessingState.ERROR
    currentlyProcessing := none }

/-- The `handleErrorRecovery` reset (also used by `handleNewConversion`):
back to the initial state. -/
def resetApp (_ : AppState) : AppState := initialAppState

/-- States reachable from the initial state by the operations of the page:
file selection (`startBatch`, which also covers `handleRetry`, a re-run of
`handleFileSelect` on the stored files), the per-file updates (both the
success and the failure path append a result), batch completion, batch
error, and reset. -/
inductive Reachable : AppState → Prop
  | init : Reachable initialAppState
  | select {s} (files : List File) : Reachable s → Reachable (startBatch files s)
  | current {s} (n : String) : Reachable s → Reachable (setCurrent n s)
  | record {s} (r : ConversionResult) : Reachable s → Reachable (appendResult r s)
  | complete {s} : Reachable s → Reachable (completeBatch s)
  | batchError {s} (msg : String) : Reachable s → Reachable (failBatch msg s)
  | reset {s} : Reachable s → Reachable (resetApp s)

/-- The whole success path of `handleFileSelect` on a non-empty batch:
start, then the per-file loop (set the current name, convert, append the
result), then completion. -/
def runBatch (env : File → TracerOutput) (files : List File) (s : AppState) :
    AppState :=
  if files.isEmpty then s
  else
    completeBatch
      (files.foldl
        (fun st f => appendResult (convertOne env f) (setCurrent f.name st))
        (startBatch files s))

end HomePage

/-! Helper lemmas about the SVG tag rewrite. -/

/-! Helper lemmas about the services. -/

/-! Concrete example values used by witnesses and counterexamples. -/

deriving instance DecidableEq for Except

/-- A small valid PNG file. -/
def exFile : File := { name := "logo.png", type := "image/png", size := 1000 }

/-- A tracer output that passes the substring validation but still carries
a metadata element. -/
def exDirtySvg : String :=
  "<svg><metadata>trace info</metadata><path d=\"M0 0\"/></svg>"

/-- A clean tracer output that passes the substring validation. -/
def exCleanSvg : String :=
  "<svg viewBox=\"0 0 10 10\"><path d=\"M0 0\"/></svg>"

/-- An oversized PNG file (11MB, above the 10MB cap). -/
def exBigFile : File := { name := "big.png", type := "image/png", size := 11534336 }

/-- The error produced when the tracer returns a non-string. -/
def exNotStringErr : AppError :=
  { message := "ImageTracer returned invalid result"
    category := ErrorCategory.PROCESSING
    userMessage := "Failed to generate SVG from image"
    recoverable := true }

/-- A tracer oracle that always returns a non-string, making every
conversion fail. -/
def constTracer : File → TracerOutput := fun _ => TracerOutput.notString

/-! Helper lemmas about the extension-stripping regex of
`generateSvgFileName`. -/

/-! Helper lemmas about the batching loop. -/

/-! Proofs.  Helper lemmas first, then one theorem per claim (with
witnesses and the C1 counterexample). -/

theorem matchesAt_decomp {pat s : List Char} (h : matchesAt pat s = true) :
    s = pat ++ s.drop pat.length := by
  induction pat generalizing s with
  | nil => simp
  | cons p ps ih =>
    cases s with
    | nil => simp [matchesAt] at h
    | cons c cs =>
      simp only [matchesAt, Bool.and_eq_true, decide_eq_true_eq] at h
      simpa [h.1] using ih h.2

theorem matchesAt_append {pat s : List Char} (t : List Char)
    (h : matchesAt pat s = true) : matchesAt pat (s ++ t) = true := by
  induction pat generalizing s with
  | nil => simp [matchesAt]
  | cons p ps ih =>
    cases s with
    | nil => simp [matchesAt] at h
    | cons c cs =>
      simp only [matchesAt, Bool.and_eq_true, decide_eq_true_eq] at h ⊢
      exact ⟨h.1, ih h.2⟩

theorem hasSub_of_matchesAt {pat s : List Char} (h : matchesAt pat s = true) :
    hasSub pat s = true := by
  cases s with
  | nil => simpa [hasSub] using h
  | cons c cs => simp [hasSub, h]

theorem hasSub_nil_pat (s : List Char) : hasSub [] s = true := by
  cases s <;> simp [hasSub, matchesAt]

theorem hasSub_append_right {pat b : List Char} (a : List Char)
    (h : hasSub pat b = true) : hasSub pat (a ++ b) = true := by
  induction a with
  | nil => simpa using h
  | cons c cs ih => simp [hasSub, ih]

theorem hasSub_append_left {pat a : List Char} (b : List Char)
    (h : hasSub pat a = true) : hasSub pat (a ++ b) = true := by
  induction a with
  | nil =>
    have : pat = [] := by
      cases pat with
      | nil => rfl
      | cons p ps => simp [hasSub, matchesAt] at h
    subst this; exact hasSub_nil_pat _
  | cons c cs ih =>
    simp only [hasSub, Bool.or_eq_true] at h
    rcases h with h | h
    · exact hasSub_of_matchesAt (by simpa using matchesAt_append b h)
    · simp [hasSub, ih h]

theorem matchesAt_of_append_cons {c : Char} {pat v : List Char} :
    ∀ u, matchesAt pat (u ++ c :: v) = true → c ∉ pat →
      matchesAt pat u = true := by
  induction pat with
  | nil => intro u _ _; simp [matchesAt]
  | cons p ps ih =>
    intro u h hc
    cases u with
    | nil =>
      exfalso
      simp only [List.nil_append, matchesAt, Bool.and_eq_true,
        decide_eq_true_eq] at h
      exact hc (h.1 ▸ List.mem_cons_self _ _)
    | cons x u' =>
      simp only [List.cons_append, matchesAt, Bool.and_eq_true,
        decide_eq_true_eq] at h ⊢
      exact ⟨h.1, ih u' h.2 (fun hm => hc (List.mem_cons_of_mem _ hm))⟩

theorem hasSub_elim_cons {pat : List Char} {c : Char} {b : List Char} :
    ∀ a, hasSub pat (a ++ c :: b) = true → c ∉ pat →
      hasSub pat a = true ∨ hasSub pat b = true := by
  intro a
  induction a with
  | nil =>
    intro h hc
    simp only [List.nil_append, hasSub, Bool.or_eq_true] at h
    rcases h with h | h
    · left
      have := matchesAt_of_append_cons (c := c) (v := b) [] h hc
      exact hasSub_of_matchesAt this
    · right; exact h
  | cons x a' ih =>
    intro h hc
    simp only [List.cons_append, hasSub, Bool.or_eq_true] at h
    rcases h with h | h
    · left
      have := matchesAt_of_append_cons (c := c) (v := b) (x :: a') h hc
      exact hasSub_of_matchesAt this
    · rcases ih h hc with h' | h'
      · left; simp [hasSub, h']
      · right; exact h'

theorem splitAtSub_decomp {pat s b a : List Char}
    (h : splitAtSub pat s = some (b, a)) : s = b ++ pat ++ a := by
  induction s generalizing b with
  | nil =>
    rw [splitAtSub] at h
    by_cases hm : matchesAt pat [] = true
    · rw [if_pos hm] at h
      injection h with h2
      injection h2 with hb ha
      subst hb; subst ha
      cases pat with
      | nil => rfl
      | cons p ps => simp [matchesAt] at hm
    · rw [if_neg hm] at h; exact absurd h (by simp)
  | cons c cs ih =>
    rw [splitAtSub] at h
    by_cases hm : matchesAt pat (c :: cs) = true
    · rw [if_pos hm] at h
      injection h with h2
      injection h2 with hb ha
      subst hb; subst ha
      simpa using matchesAt_decomp hm
    · rw [if_neg hm] at h
      cases hsp : splitAtSub pat cs with
      | none => rw [hsp] at h; exact absurd h (by simp)
      | some p =>
        obtain ⟨b', a'⟩ := p
        rw [hsp] at h
        injection h with h2
        injection h2 with hb ha
        subst hb; subst ha
        simpa using ih hsp

theorem tagSplit_decomp {l b attrs after : List Char}
    (h : tagSplit l = some (b, attrs, after)) :
    l = b ++ svgOpenL ++ attrs ++ '>' :: after := by
  cases h1 : splitAtSub svgOpenL l with
  | none =>
    simp only [tagSplit, h1] at h
    exact Option.noConfusion h
  | some p =>
    obtain ⟨b', rest⟩ := p
    cases h2 : splitAtSub ['>'] rest with
    | none =>
      simp only [tagSplit, h1, h2] at h
      exact Option.noConfusion h
    | some q =>
      obtain ⟨attrs', after'⟩ := q
      simp only [tagSplit, h1, h2, Option.some.injEq, Prod.mk.injEq] at h
      obtain ⟨hb, ha, hf⟩ := h
      subst hb; subst ha; subst hf
      have d1 := splitAtSub_decomp h1
      have d2 := splitAtSub_decomp h2
      rw [d1, d2]
      simp [List.append_assoc]

theorem replaceSvgTag_no_match {l : List Char} (tail : List Char)
    (h : tagSplit l = none) : replaceSvgTag tail l = l := by
  unfold replaceSvgTag; rw [h]

theorem replaceSvgTag_match {l b attrs after : List Char} (tail : List Char)
    (h : tagSplit l = some (b, attrs, after)) :
    replaceSvgTag tail l = b ++ svgOpenL ++ attrs ++ tail ++ after := by
  unfold replaceSvgTag; rw [h]

theorem hasSub_vbTail (w h : String) :
    hasSub "viewBox".data (vbTail w h) = true := by
  have h0 : hasSub "viewBox".data " viewBox=\"0 0 ".data = true := by decide
  unfold vbTail
  exact hasSub_append_left _ (hasSub_append_left _ (hasSub_append_left _
    (hasSub_append_left _ h0)))

theorem hasSub_par_vbTail (w h : String) :
    hasSub "preserveAspectRatio".data (vbTail w h) = true := by
  have h0 : hasSub "preserveAspectRatio".data
      "\" preserveAspectRatio=\"xMidYMid meet\">".data = true := by decide
  unfold vbTail
  exact hasSub_append_right _ h0

theorem hasSub_parTail : hasSub "preserveAspectRatio".data parTail = true := by
  decide

theorem hasSub_replace_tail {l b attrs after : List Char} {pat : List Char}
    {tail : List Char} (h : tagSplit l = some (b, attrs, after))
    (hp : hasSub pat tail = true) :
    hasSub pat (replaceSvgTag tail l) = true := by
  rw [replaceSvgTag_match tail h]
  exact hasSub_append_left _ (hasSub_append_right _ hp)

theorem hasSub_replace_preserve {l b attrs after : List Char} {pat : List Char}
    {tail : List Char} (h : tagSplit l = some (b, attrs, after))
    (hgt : '>' ∉ pat) (hl : hasSub pat l = true) :
    hasSub pat (replaceSvgTag tail l) = true := by
  have hd := tagSplit_decomp h
  rw [hd] at hl
  rw [replaceSvgTag_match tail h]
  rcases hasSub_elim_cons _ hl hgt with hA | hB
  · exact hasSub_append_left _ (hasSub_append_left _ hA)
  · exact hasSub_append_right _ hB

theorem ensureViewBox_of_contains {s : String}
    (h : hasSubStr s "viewBox" = true) : ensureViewBox s = s := by
  unfold ensureViewBox; rw [if_pos h]

theorem ensureViewBox_contains_or_nosplit (s : String) :
    hasSubStr (ensureViewBox s) "viewBox" = true ∨
      (ensureViewBox s = s ∧ tagSplit s.data = none) := by
  by_cases h : hasSubStr s "viewBox" = true
  · left; rw [ensureViewBox_of_contains h]; exact h
  · cases ht : tagSplit s.data with
    | none =>
      right
      constructor
      · unfold ensureViewBox
        rw [if_neg h, replaceSvgTag_no_match _ ht]
      · first
        | exact ht
        | rfl
    | some p =>
      obtain ⟨b, q⟩ := p
      obtain ⟨attrs, after⟩ := q
      left
      have hrw : ensureViewBox s = String.mk (replaceSvgTag
          (vbTail (jsOr (scanNum "width=\"".data s.data) "100")
            (jsOr (scanNum "height=\"".data s.data) "100")) s.data) := by
        unfold ensureViewBox
        rw [if_neg h]
      rw [hrw]
      unfold hasSubStr
      exact hasSub_replace_tail ht (hasSub_vbTail _ _)

theorem ensureViewBox_idem (s : String) :
    ensureViewBox (ensureViewBox s) = ensureViewBox s := by
  rcases ensureViewBox_contains_or_nosplit s with h | ⟨h, _⟩
  · exact ensureViewBox_of_contains h
  · rw [h]; exact h

theorem optimizeSVGForDisplay_idem (s : String) :
    optimizeSVGForDisplay (optimizeSVGForDisplay s) = optimizeSVGForDisplay s := by
  by_cases hp : hasSubStr (ensureViewBox s) "preserveAspectRatio" = true
  · have hopt : optimizeSVGForDisplay s = ensureViewBox s := by
      unfold optimizeSVGForDisplay; rw [if_pos hp]
    rw [hopt]
    unfold optimizeSVGForDisplay
    rw [ensureViewBox_idem, if_pos hp]
  · have hopt : optimizeSVGForDisplay s =
        String.mk (replaceSvgTag parTail (ensureViewBox s).data) := by
      unfold optimizeSVGForDisplay; rw [if_neg hp]
    cases ht : tagSplit (ensureViewBox s).data with
    | none =>
      have hid : replaceSvgTag parTail (ensureViewBox s).data =
          (ensureViewBox s).data := replaceSvgTag_no_match _ ht
      have hopt2 : optimizeSVGForDisplay s = ensureViewBox s := by
        rw [hopt, hid]
      rw [hopt2]
      unfold optimizeSVGForDisplay
      rw [ensureViewBox_idem, if_neg hp, hid]
    | some p =>
      obtain ⟨b, q⟩ := p
      obtain ⟨attrs, after⟩ := q
      have hvb : hasSubStr (ensureViewBox s) "viewBox" = true := by
        rcases ensureViewBox_contains_or_nosplit s with hvb | ⟨heq, hnone⟩
        · exact hvb
        · rw [heq] at ht
          rw [hnone] at ht
          exact absurd ht (by simp)
      have hPAR : hasSubStr
          (String.mk (replaceSvgTag parTail (ensureViewBox s).data))
          "preserveAspectRatio" = true :=
        hasSub_replace_tail ht hasSub_parTail
      have hVB2 : hasSubStr
          (String.mk (replaceSvgTag parTail (ensureViewBox s).data))
          "viewBox" = true :=
        hasSub_replace_preserve ht (by decide) hvb
      rw [hopt]
      unfold optimizeSVGForDisplay
      rw [ensureViewBox_of_contains hVB2, if_pos hPAR]

theorem jsOr_ne_empty {o : Option String} {d : String} (hd : d ≠ "") :
    jsOr o d ≠ "" := by
  cases o with
  | none => simpa [jsOr] using hd
  | some s =>
    by_cases hs : s = ""
    · simpa [jsOr, hs] using hd
    · simp [jsOr, hs]

theorem trace_ok_iff {o : TracerOutput} {s : String} :
    ImageProcessingServiceImpl.traceImageToSvgWithVectorizer o = Except.ok s ↔
      (o = TracerOutput.str s ∧ ImageProcessingServiceImpl.svgAccept s = true) := by
  cases o with
  | notString =>
    simp [ImageProcessingServiceImpl.traceImageToSvgWithVectorizer]
  | str s0 =>
    by_cases h0 : s0 = ""
    · subst h0
      simp only [ImageProcessingServiceImpl.traceImageToSvgWithVectorizer,
        if_pos rfl]
      constructor
      · intro h; exact absurd h (by simp)
      · rintro ⟨h, hacc⟩
        injection h with h'
        subst h'
        exact absurd hacc (by decide)
    · by_cases h1 : (!(hasSubStr s0 "<svg") || !(hasSubStr s0 "</svg>")) = true
      · have hred :
            ImageProcessingServiceImpl.traceImageToSvgWithVectorizer
              (TracerOutput.str s0) =
            Except.error
              { message := "Generated SVG is malformed: " ++
                  ImageProcessingServiceImpl.take200 s0
                category := ErrorCategory.PROCESSING
                userMessage := "The generated SVG appears to be invalid"
                recoverable := true } := by
          simp only [ImageProcessingServiceImpl.traceImageToSvgWithVectorizer]
          rw [if_neg h0, if_pos h1]
        rw [hred]
        constructor
        · intro h; exact absurd h (by simp)
        · rintro ⟨h, hacc⟩
          injection h with h'
          subst h'
          unfold ImageProcessingServiceImpl.svgAccept at hacc
          simp only [Bool.or_eq_true, Bool.not_eq_true'] at h1
          simp only [Bool.and_eq_true] at hacc
          rcases h1 with h1 | h1
          · rw [h1] at hacc; simp at hacc
          · rw [h1] at hacc; simp at hacc
      · by_cases h2 : (!(ImageProcessingServiceImpl.hasVectorContent s0)) = true
        · have hred :
              ImageProcessingServiceImpl.traceImageToSvgWithVectorizer
                (TracerOutput.str s0) =
              Except.error
                { message := "ImageTracer generated an empty SVG without vector paths: " ++
                    ImageProcessingServiceImpl.take200 s0
                  category := ErrorCategory.PROCESSING
                  userMessage := "The image could not be converted to vector format. The tracing process failed to generate any paths."
                  recoverable := true } := by
            simp only [ImageProcessingServiceImpl.traceImageToSvgWithVectorizer]
            rw [if_neg h0, if_neg h1, if_pos h2]
          rw [hred]
          constructor
          · intro h; exact absurd h (by simp)
          · rintro ⟨h, hacc⟩
            injection h with h'
            subst h'
            unfold ImageProcessingServiceImpl.svgAccept at hacc
            simp only [Bool.not_eq_true'] at h2
            simp only [Bool.and_eq_true] at hacc
            rw [h2] at hacc
            simp at hacc
        · have hred :
              ImageProcessingServiceImpl.traceImageToSvgWithVectorizer
                (TracerOutput.str s0) = Except.ok s0 := by
            simp only [ImageProcessingServiceImpl.traceImageToSvgWithVectorizer]
            rw [if_neg h0, if_neg h1, if_neg h2]
          rw [hred]
          constructor
          · intro h
            injection h with h'
            subst h'
            refine ⟨rfl, ?_⟩
            unfold ImageProcessingServiceImpl.svgAccept
            simp only [Bool.or_eq_true, Bool.not_eq_true'] at h1
            push_neg at h1
            simp only [Bool.not_eq_true', Bool.not_eq_false] at h2
            simp [Bool.not_eq_false] at h1
            simp [h1.1, h1.2, h2]
          · rintro ⟨h, _⟩
            injection h with h'
            subst h'
            rfl

theorem trace_error_props {o : TracerOutput} {e : AppError}
    (h : ImageProcessingServiceImpl.traceImageToSvgWithVectorizer o =
      Except.error e) :
    e.category = ErrorCategory.PROCESSING ∧ e.userMessage ≠ "" ∧
      e.recoverable = true := by
  cases o with
  | notString =>
    simp only [ImageProcessingServiceImpl.traceImageToSvgWithVectorizer] at h
    injection h with h'
    subst h'
    exact ⟨rfl, by decide, rfl⟩
  | str s0 =>
    simp only [ImageProcessingServiceImpl.traceImageToSvgWithVectorizer] at h
    by_cases h0 : s0 = ""
    · rw [if_pos h0] at h
      injection h with h'
      subst h'
      exact ⟨rfl, by decide, rfl⟩
    · rw [if_neg h0] at h
      by_cases h1 : (!(hasSubStr s0 "<svg") || !(hasSubStr s0 "</svg>")) = true
      · rw [if_pos h1] at h
        injection h with h'
        subst h'
        exact ⟨rfl, by dsimp only; decide, rfl⟩
      · rw [if_neg h1] at h
        by_cases h2 : (!(ImageProcessingServiceImpl.hasVectorContent s0)) = true
        · rw [if_pos h2] at h
          injection h with h'
          subst h'
          exact ⟨rfl, by dsimp only; decide, rfl⟩
        · rw [if_neg h2] at h
          exact absurd h (by simp)

theorem processImage_error_props {f : File} {t : TracerOutput} {e : AppError}
    (h : ImageProcessingServiceImpl.processImage f t = Except.error e) :
    (e.category = ErrorCategory.FILE_VALIDATION ∨
      e.category = ErrorCategory.PROCESSING) ∧
      e.userMessage ≠ "" ∧ e.recoverable = true := by
  unfold ImageProcessingServiceImpl.processImage at h
  by_cases hv : (!(ImageProcessingServiceImpl.validateFile f).isValid) = true
  · rw [if_pos hv] at h
    injection h with h'
    subst h'
    exact ⟨Or.inl rfl, jsOr_ne_empty (by decide), rfl⟩
  · rw [if_neg hv] at h
    obtain ⟨hc, hm, hr⟩ := trace_error_props h
    exact ⟨Or.inr hc, hm, hr⟩

/-- C1, counterexample.  The claim says `processImage` strips unwanted XML
tags (metadata among them) from the tracer's markup before returning it.
On this concrete valid file and tracer output, `processImage` returns the
tracer's string verbatim, and that string still contains a full
`<metadata>...</metadata>` element: no tag stripping happened. -/
theorem c1_cleanup_counterexample :
    ImageProcessingServiceImpl.processImage exFile (TracerOutput.str exDirtySvg) =
      Except.ok exDirtySvg ∧
    hasSubStr exDirtySvg "<metadata" = true ∧
    hasSubStr exDirtySvg "</metadata>" = true := by
  refine ⟨?_, by decide, by decide⟩
  decide

/-- C1, amended.  `processImage` performs no string-level cleanup: after
the file validation and the substring validation of the tracer output, it
returns the tracer's output string unchanged (the regex-stripping helper
`cleanSvg` exists in the class but is never invoked).  Every successful
result is exactly the tracer's string, which passed the substring
checks. -/
theorem c1_no_cleanup (f : File) (t : TracerOutput) (s : String)
    (h : ImageProcessingServiceImpl.processImage f t = Except.ok s) :
    t = TracerOutput.str s ∧ ImageProcessingServiceImpl.svgAccept s = true := by
  unfold ImageProcessingServiceImpl.processImage at h
  by_cases hv : (!(ImageProcessingServiceImpl.validateFile f).isValid) = true
  · rw [if_pos hv] at h
    exact absurd h (by simp)
  · rw [if_neg hv] at h
    exact trace_ok_iff.mp h

/-- C1, witness for the amended theorem at a concrete accepted input. -/
theorem c1_no_cleanup_witness :
    TracerOutput.str exCleanSvg = TracerOutput.str exCleanSvg ∧
      ImageProcessingServiceImpl.svgAccept exCleanSvg = true :=
  c1_no_cleanup exFile (TracerOutput.str exCleanSvg) exCleanSvg (by decide)

/-- C4.  Tracing resolves with the tracer's output string exactly when
that output is a string containing `<svg` and `</svg>` and at least one of
the vector-element substrings; in every other case it rejects, and every
rejection is an `AppError` in the `PROCESSING` category. -/
theorem c4_trace_validation :
    (∀ (o : TracerOutput) (s : String),
      ImageProcessingServiceImpl.traceImageToSvgWithVectorizer o =
          Except.ok s ↔
        (o = TracerOutput.str s ∧
          ImageProcessingServiceImpl.svgAccept s = true)) ∧
    (∀ (o : TracerOutput) (e : AppError),
      ImageProcessingServiceImpl.traceImageToSvgWithVectorizer o =
          Except.error e →
        e.category = ErrorCategory.PROCESSING) :=
  ⟨fun _ _ => trace_ok_iff, fun _ _ h => (trace_error_props h).1⟩

/-- C4, witness: a concrete accepted output and a concrete rejection. -/
theorem c4_trace_validation_witness :
    ImageProcessingServiceImpl.traceImageToSvgWithVectorizer
        (TracerOutput.str exCleanSvg) = Except.ok exCleanSvg ∧
    exNotStringErr.category = ErrorCategory.PROCESSING :=
  ⟨(c4_trace_validation.1 (TracerOutput.str exCleanSvg) exCleanSvg).mpr
      ⟨rfl, by decide⟩,
    c4_trace_validation.2 TracerOutput.notString exNotStringErr rfl⟩

/-- C7.  Every error raised by the embedded services is an `AppError`
value whose category is one of the three enum values, whose user-facing
message is a non-empty string, and which carries a boolean recoverable
flag; `processImage` errors are moreover always recoverable. -/
theorem c7_single_error_wrapper :
    (∀ c : ErrorCategory,
      c = ErrorCategory.FILE_VALIDATION ∨ c = ErrorCategory.PROCESSING ∨
        c = ErrorCategory.BROWSER_COMPATIBILITY) ∧
    (∀ (f : File) (t : TracerOutput) (e : AppError),
      ImageProcessingServiceImpl.processImage f t = Except.error e →
        (e.category = ErrorCategory.FILE_VALIDATION ∨
          e.category = ErrorCategory.PROCESSING) ∧
          e.userMessage ≠ "" ∧ e.recoverable = true) ∧
    (∀ (content mimeType : String) (e : AppError),
      FileHandlingServiceImpl.createDownloadBlob content mimeType =
          Except.error e →
        e.category = ErrorCategory.FILE_VALIDATION ∧ e.userMessage ≠ "") ∧
    (∀ (b : Blob) (fileName : String) (e : AppError),
      FileHandlingServiceImpl.triggerDownload b fileName = Except.error e →
        e.category = ErrorCategory.FILE_VALIDATION ∧ e.userMessage ≠ "") := by
  refine ⟨?_, ?_, ?_, ?_⟩
  · intro c
    cases c
    · exact Or.inl rfl
    · exact Or.inr (Or.inl rfl)
    · exact Or.inr (Or.inr rfl)
  · intro f t e h
    exact processImage_error_props h
  · intro content mimeType e h
    unfold FileHandlingServiceImpl.createDownloadBlob at h
    by_cases hc : content = ""
    · rw [if_pos hc] at h
      injection h with h'
      subst h'
      exact ⟨rfl, by decide⟩
    · rw [if_neg hc] at h
      exact absurd h (by simp)
  · intro b fileName e h
    unfold FileHandlingServiceImpl.triggerDownload at h
    by_cases hn : fileName = ""
    · rw [if_pos hn] at h
      injection h with h'
      subst h'
      exact ⟨rfl, by decide⟩
    · rw [if_neg hn] at h
      exact absurd h (by simp)

/-- C7, witness at concrete erroring inputs of each service. -/
theorem c7_single_error_wrapper_witness :
    (exNotStringErr.category = ErrorCategory.FILE_VALIDATION ∨
      exNotStringErr.category = ErrorCategory.PROCESSING) ∧
      exNotStringErr.userMessage ≠ "" ∧ exNotStringErr.recoverable = true := by
  exact c7_single_error_wrapper.2.1 exFile TracerOutput.notString
    exNotStringErr (by decide)

/-- C8.  The size cap is exclusive at the boundary and absent limits are
permissive: `validateFileSize` accepts exactly when the cap is
non-positive or the size is at most the cap (so a file whose size equals
the cap is accepted), and `validateFileType` accepts every file when the
allowed-types list is empty. -/
theorem c8_boundary_and_permissive_defaults :
    (∀ (f : File) (maxSize : Int),
      FileHandlingServiceImpl.validateFileSize f maxSize = true ↔
        (maxSize ≤ 0 ∨ (f.size : Int) ≤ maxSize)) ∧
    (∀ f : File, FileHandlingServiceImpl.validateFileType f [] = true) := by
  constructor
  · intro f maxSize
    by_cases h : maxSize ≤ 0 <;>
      simp [FileHandlingServiceImpl.validateFileSize, h]
  · intro f
    rfl

/-- C2.  Oversized files are rejected: any file above the 10MB cap fails
`ImageProcessingServiceImpl.validateFile` with an error message and makes
`processImage` throw a `FILE_VALIDATION` `AppError` whatever the tracer
would have returned; any file of a supported MIME type at or below the
cap passes validation; and `FileHandlingServiceImpl.validateFile` also
rejects any file above the cap, whatever the allowed-types list. -/
theorem c2_ten_mb_cap :
    (∀ f : File, ImageProcessingServiceImpl.maxFileSize < f.size →
      (ImageProcessingServiceImpl.validateFile f).isValid = false ∧
      (ImageProcessingServiceImpl.validateFile f).error ≠ none ∧
      ∀ t : TracerOutput, ∃ e : AppError,
        ImageProcessingServiceImpl.processImage f t = Except.error e ∧
          e.category = ErrorCategory.FILE_VALIDATION) ∧
    (∀ f : File,
      ImageProcessingServiceImpl.supportedTypes.contains (toLowerStr f.type) =
          true →
      f.size ≤ ImageProcessingServiceImpl.maxFileSize →
      (ImageProcessingServiceImpl.validateFile f).isValid = true) ∧
    (∀ (f : File) (allowedTypes : List String),
      (ImageProcessingServiceImpl.maxFileSize : Int) < (f.size : Int) →
      (FileHandlingServiceImpl.validateFile f allowedTypes
        (ImageProcessingServiceImpl.maxFileSize : Int)).isValid = false) := by
  refine ⟨?_, ?_, ?_⟩
  · intro f hbig
    have hval : (ImageProcessingServiceImpl.validateFile f).isValid = false ∧
        (ImageProcessingServiceImpl.validateFile f).error ≠ none := by
      unfold ImageProcessingServiceImpl.validateFile
      by_cases ht :
          (!(ImageProcessingServiceImpl.supportedTypes.contains
            (toLowerStr f.type))) = true
      · rw [if_pos ht]
        exact ⟨rfl, by simp⟩
      · rw [if_neg ht, if_pos hbig]
        exact ⟨rfl, by simp⟩
    refine ⟨hval.1, hval.2, ?_⟩
    intro t
    unfold ImageProcessingServiceImpl.processImage
    rw [if_pos (by rw [hval.1]; rfl)]
    exact ⟨_, rfl, rfl⟩
  · intro f ht hsize
    unfold ImageProcessingServiceImpl.validateFile
    rw [if_neg (by rw [ht]; simp), if_neg (by simpa using hsize)]
  · intro f allowedTypes hbig
    unfold FileHandlingServiceImpl.validateFile
    by_cases ht : (!(FileHandlingServiceImpl.validateFileType f allowedTypes)) = true
    · rw [if_pos ht]
    · rw [if_neg ht]
      have hsz : FileHandlingServiceImpl.validateFileSize f
          (ImageProcessingServiceImpl.maxFileSize : Int) = false := by
        unfold FileHandlingServiceImpl.validateFileSize
        rw [if_neg (by decide)]
        simp only [decide_eq_false_iff_not, not_le]
        exact hbig
      rw [if_pos (by rw [hsz]; rfl)]

/-- C2, witness at an 11MB file and a small supported file. -/
theorem c2_ten_mb_cap_witness :
    (ImageProcessingServiceImpl.validateFile exBigFile).isValid = false ∧
    (ImageProcessingServiceImpl.validateFile exFile).isValid = true ∧
    (FileHandlingServiceImpl.validateFile exBigFile [".png"]
      (ImageProcessingServiceImpl.maxFileSize : Int)).isValid = false := by
  refine ⟨(c2_ten_mb_cap.1 exBigFile (by decide)).1,
    c2_ten_mb_cap.2.1 exFile (by decide) (by decide),
    c2_ten_mb_cap.2.2 exBigFile [".png"] (by decide)⟩

theorem extMatchRev_no_dot {l : List Char} :
    ∀ acc : List Char, '.' ∉ l → FileHandlingServiceImpl.extMatchRev acc l = none := by
  induction l with
  | nil => intro acc _; rfl
  | cons c cs ih =>
    intro acc h
    have hc : ¬c = '.' := fun hc => h (hc ▸ List.mem_cons_self _ _)
    rw [FileHandlingServiceImpl.extMatchRev, if_neg hc]
    by_cases hs : c = '/'
    · rw [if_pos hs]
    · rw [if_neg hs]
      exact ih _ (fun hm => h (List.mem_cons_of_mem _ hm))

theorem extMatchRev_match {ext : List Char} :
    ∀ (acc r : List Char), (∀ c ∈ ext, c ≠ '.' ∧ c ≠ '/') →
      (ext ≠ [] ∨ acc ≠ []) →
      FileHandlingServiceImpl.extMatchRev acc (ext ++ '.' :: r) = some r := by
  induction ext with
  | nil =>
    intro acc r _ hne
    have hacc : acc ≠ [] := by
      rcases hne with h | h
      · exact absurd rfl h
      · exact h
    rw [List.nil_append, FileHandlingServiceImpl.extMatchRev, if_pos rfl,
      if_neg (by simpa [List.isEmpty_iff] using hacc)]
  | cons c cs ih =>
    intro acc r hall hne
    have hc := hall c (List.mem_cons_self _ _)
    rw [List.cons_append, FileHandlingServiceImpl.extMatchRev,
      if_neg hc.1, if_neg hc.2]
    exact ih (c :: acc) r (fun x hx => hall x (List.mem_cons_of_mem _ hx))
      (Or.inr (List.cons_ne_nil _ _))

/-- C3.  The downloaded file name is the original name with its final
dot-extension replaced by `.svg`: a successful click of the download
button hands the browser exactly `generateSvgFileName fileName`, and
`generateSvgFileName` removes a final `.ext` segment (non-empty, with no
dot or slash in it) when one exists and otherwise leaves the name intact,
then appends `.svg`. -/
theorem c3_svg_file_name :
    (∀ (svgContent fileName : String) (disabled isDownloading : Bool)
        (d : Download),
      DownloadButton.handleDownload svgContent fileName disabled isDownloading =
          some (Except.ok d) →
        d.fileName = FileHandlingServiceImpl.generateSvgFileName fileName) ∧
    (∀ base ext : List Char, ext ≠ [] → (∀ c ∈ ext, c ≠ '.' ∧ c ≠ '/') →
      FileHandlingServiceImpl.generateSvgFileName
          (String.mk (base ++ '.' :: ext)) = String.mk base ++ ".svg") ∧
    (∀ name : String, '.' ∉ name.data →
      FileHandlingServiceImpl.generateSvgFileName name = name ++ ".svg") := by
  refine ⟨?_, ?_, ?_⟩
  · intro svgContent fileName disabled isDownloading d h
    unfold DownloadButton.handleDownload at h
    by_cases hg : (decide (svgContent = "") || decide (fileName = "") ||
        disabled || isDownloading) = true
    · rw [if_pos hg] at h
      exact absurd h (by simp)
    · rw [if_neg hg] at h
      simp only [Bool.or_eq_true, decide_eq_true_eq, not_or] at hg
      obtain ⟨⟨⟨hsvg, _⟩, _⟩, _⟩ := hg
      injection h with h2
      rw [FileHandlingServiceImpl.createDownloadBlob, if_neg hsvg] at h2
      dsimp only at h2
      unfold FileHandlingServiceImpl.triggerDownload at h2
      by_cases hn : FileHandlingServiceImpl.generateSvgFileName fileName = ""
      · rw [if_pos hn] at h2
        exact absurd h2 (by simp)
      · rw [if_neg hn] at h2
        injection h2 with h3
        rw [← h3]
  · intro base ext hne hall
    unfold FileHandlingServiceImpl.generateSvgFileName
    have hrev : (String.mk (base ++ '.' :: ext)).data.reverse =
        ext.reverse ++ '.' :: base.reverse := by
      simp [List.reverse_append]
    rw [hrev, extMatchRev_match [] base.reverse
      (by intro c hc; exact hall c (List.mem_reverse.mp hc))
      (Or.inl (by simpa using hne))]
    simp
  · intro name h
    unfold FileHandlingServiceImpl.generateSvgFileName
    rw [extMatchRev_no_dot [] (by simpa using h)]

/-- C3, witness at the concrete download of `photo.png`. -/
theorem c3_svg_file_name_witness :
    FileHandlingServiceImpl.generateSvgFileName
        (String.mk ("photo".data ++ '.' :: "png".data)) =
      String.mk "photo".data ++ ".svg" ∧
    FileHandlingServiceImpl.generateSvgFileName "README" = "README" ++ ".svg" := by
  exact ⟨c3_svg_file_name.2.1 "photo".data "png".data (by decide) (by decide),
    c3_svg_file_name.2.2 "README" (by decide)⟩

theorem convertOne_file (env : File → TracerOutput) (f : File) :
    (HomePage.convertOne env f).file = f := by
  unfold HomePage.convertOne
  cases ImageProcessingServiceImpl.processImage f (env f) <;> rfl

theorem processFiles_eq_map (env : File → TracerOutput) (files : List File) :
    HomePage.processFiles env files = files.map (HomePage.convertOne env) := by
  induction files with
  | nil => rfl
  | cons f rest ih => simp [HomePage.processFiles, ih]

theorem processFiles_length (env : File → TracerOutput) (files : List File) :
    (HomePage.processFiles env files).length = files.length := by
  rw [processFiles_eq_map]; exact List.length_map _ _

theorem processFiles_get (env : File → TracerOutput) (files : List File)
    (j : Nat) (hj : j < files.length)
    (hj2 : j < (HomePage.processFiles env files).length) :
    (HomePage.processFiles env files).get ⟨j, hj2⟩ =
      HomePage.convertOne env (files.get ⟨j, hj⟩) := by
  have h := processFiles_eq_map env files
  rw [List.get_of_eq h]
  simp [List.get_eq_getElem, List.getElem_map]

theorem foldl_conversionResults (env : File → TracerOutput) :
    ∀ (files : List File) (st : AppState),
      (files.foldl
        (fun st f => HomePage.appendResult (HomePage.convertOne env f)
          (HomePage.setCurrent f.name st)) st).conversionResults =
        st.conversionResults ++ HomePage.processFiles env files := by
  intro files
  induction files with
  | nil => intro st; simp [HomePage.processFiles]
  | cons f rest ih =>
    intro st
    rw [List.foldl_cons, ih]
    simp [HomePage.appendResult, HomePage.setCurrent, HomePage.processFiles]

/-- C5.  The loop of `handleFileSelect` converts the selected files one at
a time in input order: on a non-empty batch the final `conversionResults`
list is exactly the sequential per-file results, with one entry per input
file, whose underlying files are the input list in the same order. -/
theorem c5_sequential_one_result_per_file (env : File → TracerOutput)
    (files : List File) (s : AppState) (h : files ≠ []) :
    (HomePage.runBatch env files s).conversionResults =
      HomePage.processFiles env files ∧
    ((HomePage.runBatch env files s).conversionResults).map
        ConversionResult.file = files ∧
    ((HomePage.runBatch env files s).conversionResults).length =
      files.length := by
  have hne : files.isEmpty = false := by
    cases files with
    | nil => exact absurd rfl h
    | cons f rest => rfl
  have hres : (HomePage.runBatch env files s).conversionResults =
      HomePage.processFiles env files := by
    unfold HomePage.runBatch
    rw [if_neg (by simp [hne])]
    have h1 : ∀ X : AppState,
        (HomePage.completeBatch X).conversionResults = X.conversionResults :=
      fun X => rfl
    rw [h1, foldl_conversionResults]
    have h2 : (HomePage.startBatch files s).conversionResults = [] := by
      unfold HomePage.startBatch
      rw [if_neg (by simp [hne])]
    rw [h2, List.nil_append]
  refine ⟨hres, ?_, ?_⟩
  · rw [hres, processFiles_eq_map, List.map_map]
    have hid : ConversionResult.file ∘ HomePage.convertOne env = id := by
      funext f; exact convertOne_file env f
    rw [hid, List.map_id]
  · rw [hres, processFiles_length]

/-- C5, witness at a concrete one-file batch. -/
theorem c5_sequential_witness :
    ((HomePage.runBatch constTracer [exFile]
        HomePage.initialAppState).conversionResults).map
      ConversionResult.file = [exFile] :=
  (c5_sequential_one_result_per_file constTracer [exFile]
    HomePage.initialAppState (by simp)).2.1

/-- C10.  A conversion failure for one file does not abort the batch: when
processing file `i` errors, the results list still has an entry for every
file, the entry at `i` has empty `svgContent` and the error's non-empty
user message, and every other position holds exactly the result its own
file produces, unaffected by the failure at `i`. -/
theorem c10_failure_does_not_abort (env : File → TracerOutput)
    (files : List File) (i : Nat) (hi : i < files.length) (e : AppError)
    (herr : ImageProcessingServiceImpl.processImage (files.get ⟨i, hi⟩)
      (env (files.get ⟨i, hi⟩)) = Except.error e)
    (hi2 : i < (HomePage.processFiles env files).length) :
    ((HomePage.processFiles env files).get ⟨i, hi2⟩).svgContent = "" ∧
    ((HomePage.processFiles env files).get ⟨i, hi2⟩).error =
      some e.userMessage ∧
    e.userMessage ≠ "" ∧
    (HomePage.processFiles env files).length = files.length ∧
    ∀ (j : Nat) (hj : j < files.length)
        (hj2 : j < (HomePage.processFiles env files).length),
      (HomePage.processFiles env files).get ⟨j, hj2⟩ =
        HomePage.convertOne env (files.get ⟨j, hj⟩) := by
  have hget := processFiles_get env files i hi hi2
  have hconv : HomePage.convertOne env (files.get ⟨i, hi⟩) =
      { file := files.get ⟨i, hi⟩, svgContent := "",
        error := some e.userMessage } := by
    unfold HomePage.convertOne
    rw [herr]
  refine ⟨?_, ?_, ?_, processFiles_length env files, ?_⟩
  · rw [hget, hconv]
  · rw [hget, hconv]
  · exact (processImage_error_props herr).2.1
  · intro j hj hj2
    exact processFiles_get env files j hj hj2

/-- C10, witness at a concrete one-file batch whose single conversion
fails. -/
theorem c10_failure_witness :
    ((HomePage.processFiles constTracer [exFile]).get ⟨0, by decide⟩).svgContent
        = "" ∧
    ((HomePage.processFiles constTracer [exFile]).get ⟨0, by decide⟩).error =
      some exNotStringErr.userMessage ∧
    exNotStringErr.userMessage ≠ "" := by
  have h := c10_failure_does_not_abort constTracer [exFile] 0 (by decide)
    exNotStringErr (by decide) (by decide)
  exact ⟨h.1, h.2.1, h.2.2.1⟩

/-- C6.  In every state reachable from the initial state by the page's
operations (file selection, the per-file updates of both the success and
the failure path, batch completion, batch error, retry and reset), the
`processingState` field holds exactly one of the five enum values, and
`isProcessing` is true exactly when that value is `PROCESSING`. -/
theorem c6_processing_state_invariant (s : AppState)
    (h : HomePage.Reachable s) :
    [ProcessingState.IDLE, ProcessingState.UPLOADING,
        ProcessingState.PROCESSING, ProcessingState.COMPLETED,
        ProcessingState.ERROR].count s.processingState = 1 ∧
    (s.isProcessing = true ↔ s.processingState = ProcessingState.PROCESSING) := by
  have hcount : ∀ ps : ProcessingState,
      [ProcessingState.IDLE, ProcessingState.UPLOADING,
        ProcessingState.PROCESSING, ProcessingState.COMPLETED,
        ProcessingState.ERROR].count ps = 1 := by
    intro ps; cases ps <;> decide
  refine ⟨hcount _, ?_⟩
  induction h with
  | init => simp [HomePage.initialAppState]
  | select files _ ih =>
    by_cases hf : files.isEmpty = true
    · simpa [HomePage.startBatch, hf] using ih
    · simp [HomePage.startBatch, hf]
  | current n _ ih => simpa [HomePage.setCurrent] using ih
  | record r _ ih => simpa [HomePage.appendResult] using ih
  | complete _ ih => simp [HomePage.completeBatch]
  | batchError msg _ ih => simp [HomePage.failBatch]
  | reset _ ih => simp [HomePage.resetApp, HomePage.initialAppState]

/-- C6, witness: the invariant at the initial state. -/
theorem c6_processing_state_invariant_witness :
    [ProcessingState.IDLE, ProcessingState.UPLOADING,
        ProcessingState.PROCESSING, ProcessingState.COMPLETED,
        ProcessingState.ERROR].count HomePage.initialAppState.processingState
      = 1 ∧
    (HomePage.initialAppState.isProcessing = true ↔
      HomePage.initialAppState.processingState = ProcessingState.PROCESSING) :=
  c6_processing_state_invariant HomePage.initialAppState HomePage.Reachable.init

/-- C9.  The SVG display-normalisation functions are idempotent: applying
`ensureViewBox` or `optimizeSVGForDisplay` twice gives the same string as
applying it once, and a string that already mentions `viewBox` is returned
unchanged by `ensureViewBox`. -/
theorem c9_display_normalisation_idempotent (s : String) :
    ensureViewBox (ensureViewBox s) = ensureViewBox s ∧
    optimizeSVGForDisplay (optimizeSVGForDisplay s) =
      optimizeSVGForDisplay s ∧
    (hasSubStr s "viewBox" = true → ensureViewBox s = s) :=
  ⟨ensureViewBox_idem s, optimizeSVGForDisplay_idem s,
    fun h => ensureViewBox_of_contains h⟩

/-- C9, witness at a concrete string that already has a viewBox. -/
theorem c9_display_normalisation_witness :
    ensureViewBox exCleanSvg = exCleanSvg :=
  (c9_display_normalisation_idempotent exCleanSvg).2.2 (by decide)
